import Mathlib

/-!
Verification of the multi-agent coordination layer of the AgentBase
repository (`backend/src/coordinator.ts`, class `RedisCoordinator`).

The TypeScript source is shallowly embedded:
* JavaScript JSON values are the inductive `Json`; `JSON.stringify` is
  `Json.render`, `JSON.parse` is `jsonParse` (modelled for the JSON
  fragment the coordinator exchanges: fractional/exponent numerics are
  outside the model).  Property access `v.f` (which throws a `TypeError`
  on `null`/`undefined` and yields `undefined` on missing fields) is
  `jsGet`; template-literal interpolation is `jsTemplate`.
* The Redis hash store is an association list of hashes (`Broker`);
  `hSet` is field-level merge, exactly as Redis performs it.
* Each coordinator operation is a pure function producing the list of
  broker `Event`s it performs (hash writes, channel publishes, console
  output), in the order the source awaits them; applying the write
  events to a broker is `applyEvents`.
* The Redis string keyspace with expiry used by the lock methods is
  `LockStore`; `SET key v NX PX ttl` and `GET`/`DEL` are modelled with
  an explicit clock.
-/

namespace AgentBase

/-- Left brace character (written via its code point). -/
def lbrace : Char := Char.ofNat 123

/-- Right brace character (written via its code point). -/
def rbrace : Char := Char.ofNat 125

/-- JavaScript JSON values (integers only; the coordinator never
produces fractional numbers). -/
inductive Json where
  | null : Json
  | bool (b : Bool) : Json
  | num (n : Int) : Json
  | str (s : String) : Json
  | arr (elems : List Json) : Json
  | obj (fields : List (String × Json)) : Json
deriving Repr

/-- Escaping of one character inside a JSON string literal,
as `JSON.stringify` performs it for the characters within the model. -/
def escapeChar (c : Char) : List Char :=
  if c = '"' then ['\\', '"']
  else if c = '\\' then ['\\', '\\']
  else if c = '\n' then ['\\', 'n']
  else if c = '\t' then ['\\', 't']
  else if c = '\r' then ['\\', 'r']
  else [c]

/-- Escape a whole string for a JSON string literal. -/
def escapeString (s : String) : String :=
  String.mk (s.data.map escapeChar).flatten

/-- Render a JSON string literal including the surrounding quotes. -/
def renderString (s : String) : String :=
  "\"" ++ escapeString s ++ "\""

mutual

/-- Embedding of `JSON.stringify` (no spacing, insertion order of
object fields preserved, as in V8). -/
def Json.render : Json → String
  | .null => "null"
  | .bool true => "true"
  | .bool false => "false"
  | .num n => toString n
  | .str s => renderString s
  | .arr es => "[" ++ renderElems es ++ "]"
  | .obj fs => lbrace.toString ++ renderFields fs ++ rbrace.toString

/-- Render array elements separated by commas. -/
def renderElems : List Json → String
  | [] => ""
  | [e] => e.render
  | e :: rest => e.render ++ "," ++ renderElems rest

/-- Render object members separated by commas. -/
def renderFields : List (String × Json) → String
  | [] => ""
  | [(k, v)] => renderString k ++ ":" ++ v.render
  | (k, v) :: rest => renderString k ++ ":" ++ v.render ++ "," ++ renderFields rest

end

/-- Skip JSON whitespace. -/
def skipWs : List Char → List Char
  | c :: cs => if c = ' ' ∨ c = '\n' ∨ c = '\t' ∨ c = '\r' then skipWs cs else c :: cs
  | [] => []

/-- Unescape one character following a backslash in a JSON string
literal (`\u` sequences are outside the model). -/
def unescapeChar (c : Char) : Option Char :=
  if c = '"' then some '"'
  else if c = '\\' then some '\\'
  else if c = '/' then some '/'
  else if c = 'n' then some '\n'
  else if c = 't' then some '\t'
  else if c = 'r' then some '\r'
  else none

/-- Parse the body of a JSON string literal (the opening quote already
consumed); returns the string and the remaining input. -/
def parseStringBody : List Char → Option (String × List Char)
  | [] => none
  | c :: cs =>
    if c = '"' then some ("", cs)
    else if c = '\\' then
      match cs with
      | [] => none
      | e :: cs2 =>
        match unescapeChar e with
        | none => none
        | some u =>
          match parseStringBody cs2 with
          | none => none
          | some (s, rest) => some (u.toString ++ s, rest)
    else
      match parseStringBody cs with
      | none => none
      | some (s, rest) => some (c.toString ++ s, rest)

/-- Take a maximal run of decimal digits. -/
def takeDigits : List Char → List Char × List Char
  | c :: cs =>
    if c.isDigit then
      let (ds, rest) := takeDigits cs
      (c :: ds, rest)
    else ([], c :: cs)
  | [] => ([], [])

/-- Numeric value of a digit run. -/
def digitsVal (ds : List Char) : Nat :=
  ds.foldl (fun acc c => acc * 10 + (c.toNat - 48)) 0

/-- Parse a JSON integer (fractional and exponent forms are outside
the model and rejected). -/
def parseNumber : List Char → Option (Json × List Char)
  | '-' :: cs =>
    match takeDigits cs with
    | ([], _) => none
    | (ds, rest) =>
      match rest with
      | c :: _ => if c = '.' ∨ c = 'e' ∨ c = 'E' then none
                  else some (.num (-(digitsVal ds : Int)), rest)
      | [] => some (.num (-(digitsVal ds : Int)), rest)
  | cs =>
    match takeDigits cs with
    | ([], _) => none
    | (ds, rest) =>
      match rest with
      | c :: _ => if c = '.' ∨ c = 'e' ∨ c = 'E' then none
                  else some (.num (digitsVal ds : Int), rest)
      | [] => some (.num (digitsVal ds : Int), rest)

mutual

/-- Fueled recursive-descent JSON value parser. -/
def parseVal : Nat → List Char → Option (Json × List Char)
  | 0, _ => none
  | Nat.succ fuel, cs =>
    match skipWs cs with
    | [] => none
    | c :: cs2 =>
      if c = '"' then
        match parseStringBody cs2 with
        | some (s, rest) => some (.str s, rest)
        | none => none
      else if c = '[' then
        match skipWs cs2 with
        | ']' :: rest => some (.arr [], rest)
        | cs3 =>
          match parseElems fuel cs3 with
          | some (es, rest) => some (.arr es, rest)
          | none => none
      else if c = lbrace then
        match skipWs cs2 with
        | c2 :: rest =>
          if c2 = rbrace then some (.obj [], rest)
          else
            match parseMembers fuel (c2 :: rest) with
            | some (fs, rest2) => some (.obj fs, rest2)
            | none => none
        | [] => none
      else if c = 'n' then
        match cs2 with
        | 'u' :: 'l' :: 'l' :: rest => some (.null, rest)
        | _ => none
      else if c = 't' then
        match cs2 with
        | 'r' :: 'u' :: 'e' :: rest => some (.bool true, rest)
        | _ => none
      else if c = 'f' then
        match cs2 with
        | 'a' :: 'l' :: 's' :: 'e' :: rest => some (.bool false, rest)
        | _ => none
      else if c = '-' ∨ c.isDigit then parseNumber (c :: cs2)
      else none

/-- Parse one or more array elements, consuming the closing bracket. -/
def parseElems : Nat → List Char → Option (List Json × List Char)
  | 0, _ => none
  | Nat.succ fuel, cs =>
    match parseVal fuel cs with
    | none => none
    | some (v, rest) =>
      match skipWs rest with
      | ',' :: rest2 =>
        match parseElems fuel rest2 with
        | some (es, rest3) => some (v :: es, rest3)
        | none => none
      | ']' :: rest2 => some ([v], rest2)
      | _ => none

/-- Parse one or more object members, consuming the closing brace. -/
def parseMembers : Nat → List Char → Option (List (String × Json) × List Char)
  | 0, _ => none
  | Nat.succ fuel, cs =>
    match skipWs cs with
    | '"' :: cs2 =>
      match parseStringBody cs2 with
      | none => none
      | some (k, rest) =>
        match skipWs rest with
        | ':' :: rest2 =>
          match parseVal fuel rest2 with
          | none => none
          | some (v, rest3) =>
            match skipWs rest3 with
            | c :: rest4 =>
              if c = ',' then
                match parseMembers fuel rest4 with
                | some (fs, rest5) => some ((k, v) :: fs, rest5)
                | none => none
              else if c = rbrace then some ([(k, v)], rest4)
              else none
            | [] => none
        | _ => none
    | _ => none

end

/-- Embedding of `JSON.parse`: parses the whole input (with trailing
whitespace) or fails, modelling the thrown `SyntaxError` as `none`. -/
def jsonParse (s : String) : Option Json :=
  match parseVal (2 * s.length + 2) s.data with
  | some (j, rest) => if skipWs rest = [] then some j else none
  | none => none

/-- Result of a JavaScript property access: either a `TypeError` is
thrown (access on `null`/`undefined`) or a value — possibly
`undefined`, modelled as `none` — is produced. -/
inductive JsAccess where
  | typeError : JsAccess
  | ok (v : Option Json) : JsAccess
deriving Repr

/-- Field lookup on a JSON object (first binding wins). -/
def objLookup (fs : List (String × Json)) (k : String) : Option Json :=
  match fs.find? (fun p => p.1 = k) with
  | some p => some p.2
  | none => none

/-- Embedding of `v.f`: throws on `null`/`undefined`, looks fields up
on objects, and yields `undefined` on every other primitive (none of
the accessed names exist on their prototypes). -/
def jsGet : Option Json → String → JsAccess
  | none, _ => .typeError
  | some .null, _ => .typeError
  | some (.obj fs), k => .ok (objLookup fs k)
  | some _, _ => .ok none

mutual

/-- JavaScript string coercion of a (non-`undefined`) JSON value. -/
def Json.templ : Json → String
  | .null => "null"
  | .bool true => "true"
  | .bool false => "false"
  | .num n => toString n
  | .str s => s
  | .arr es => jsTemplateElems es
  | .obj _ => "[object Object]"

/-- Array elements joined by commas; `null` elements coerce to the
empty string inside arrays. -/
def jsTemplateElems : List Json → String
  | [] => ""
  | [Json.null] => ""
  | [e] => e.templ
  | Json.null :: rest => "," ++ jsTemplateElems rest
  | e :: rest => e.templ ++ "," ++ jsTemplateElems rest

end

/-- Embedding of JavaScript string coercion as performed inside a
template literal. -/
def jsTemplate : Option Json → String
  | none => "undefined"
  | some v => v.templ

/-! ## The Redis broker model -/
/-- A Redis hash record: field/value pairs (no duplicate fields arise
from the operations below; lookups take the first binding). -/
abbrev Hash := List (String × String)

/-- Embedding of `HGET` on one hash. -/
def hashGet (h : Hash) (f : String) : Option String :=
  match h.find? (fun p => p.1 = f) with
  | some p => some p.2
  | none => none

/-- Set one field of a hash (replace if present, append otherwise). -/
def hashSetField (h : Hash) (f v : String) : Hash :=
  match h with
  | [] => [(f, v)]
  | (g, w) :: rest => if g = f then (f, v) :: rest else (g, w) :: hashSetField rest f v

/-- Embedding of a multi-field `HSET`: fields merged left to right. -/
def hashSetFields (h : Hash) (fs : List (String × String)) : Hash :=
  fs.foldl (fun acc p => hashSetField acc p.1 p.2) h

/-- The hash keyspace of the broker, as an association list (a missing
key and an empty hash are indistinguishable to `HGET`, matching
Redis). -/
abbrev Broker := List (String × Hash)

/-- The hash stored at a key (`[]` when the key is absent). -/
def brokerHash (b : Broker) (k : String) : Hash :=
  match b.find? (fun p => p.1 = k) with
  | some p => p.2
  | none => []

/-- Whether a hash key exists in the keyspace. -/
def brokerHasKey (b : Broker) (k : String) : Bool :=
  (b.find? (fun p => p.1 = k)).isSome

/-- Embedding of `HSET key fields`. -/
def brokerHSet (b : Broker) (k : String) (fs : List (String × String)) : Broker :=
  match b with
  | [] => [(k, hashSetFields [] fs)]
  | (g, h) :: rest =>
    if g = k then (k, hashSetFields h fs) :: rest else (g, h) :: brokerHSet rest k fs

/-- One observable effect of a coordinator operation, in the order the
source `await`s it: a hash write, a channel publish, or console
output. -/
inductive Event where
  | hset (key : String) (fields : List (String × String)) : Event
  | publish (channel : String) (message : String) : Event
  | log (msg : String) : Event
  | warn (msg : String) : Event
  | error (msg : String) : Event
deriving Repr, DecidableEq

/-- Apply the state-changing part of one event to the broker. -/
def applyEvent (b : Broker) : Event → Broker
  | .hset k fs => brokerHSet b k fs
  | _ => b

/-- Apply a whole event trace to the broker. -/
def applyEvents (b : Broker) (evs : List Event) : Broker :=
  evs.foldl applyEvent b

/-- The sequence of values written to the `status` field of hash key
`k` by an event trace. -/
def statusWrites (evs : List Event) (k : String) : List String :=
  evs.filterMap fun e =>
    match e with
    | .hset key fs => if key = k then (fs.find? (fun p => p.1 = "status")).map (fun p => p.2)
                      else none
    | _ => none

/-- The hash-write events of a trace (used to state that an operation
performs no registry write). -/
def hsetEvents (evs : List Event) : List Event :=
  evs.filter fun e =>
    match e with
    | .hset _ _ => true
    | _ => false

/-! ## The coordinator operations (`RedisCoordinator`) -/
/-- Task id generation of `publishTask` (line 119):
`task:<Date.now()>:<random suffix>`. -/
def mkTaskId (now : Nat) (rand : String) : String :=
  "task:" ++ toString now ++ ":" ++ rand

/-- The data of one published task message, before serialization. -/
structure PubMsg where
  tid : String
  target : String
  priority : Int
  payload : Json
  ts : Nat

/-- The `TaskMessage` object literal built by `publishTask`
(lines 120-127), field order as in the source. -/
def taskJson (m : PubMsg) : Json :=
  .obj [("taskId", .str m.tid), ("agentId", .str m.target),
        ("priority", .num m.priority), ("payload", m.payload),
        ("timestamp", .num m.ts), ("status", .str "pending")]

/-- Embedding of `publishTask` (lines 118-141).  `Date.now()` is read
three times in the source (id, `timestamp`, `created_at`), so the
clock readings are the parameters `now`, `now2`, `now3`; the
`Math.random` suffix is `rand`.  Returns the task id and the event
trace in source order: registry `hSet`, then channel `publish`. -/
def publishTask (target : String) (payload : Json) (priority : Int)
    (now now2 now3 : Nat) (rand : String) : String × List Event :=
  let taskId := mkTaskId now rand
  let task := taskJson ⟨taskId, target, priority, payload, now2⟩
  (taskId,
   [.hset ("task:" ++ taskId)
      [("data", task.render), ("status", "pending"), ("created_at", toString now3)],
    .publish ("agent:" ++ target ++ ":tasks") task.render,
    .log ("Published task " ++ taskId ++ " to " ++ target)])

/-- Embedding of `updateTaskStatus` (lines 147-152): one `hSet`
writing `status` and `updated_at` together. -/
def updateTaskStatusEvents (taskId status : String) (now : Nat) : List Event :=
  [.hset ("task:" ++ taskId) [("status", status), ("updated_at", toString now)]]

/-- Embedding of `getTaskStatus` (lines 154-157). -/
def getTaskStatus (b : Broker) (taskId : String) : Option String :=
  hashGet (brokerHash b ("task:" ++ taskId)) "status"

/-- The `AgentStatus` object literal built by `publishStatus`
(lines 160-166); `currentTask` is never set. -/
def agentStatusJson (selfId : String) (now : Nat) : Json :=
  .obj [("agentId", .str selfId), ("status", .str "online"),
        ("tasksCompleted", .num 0), ("uptime", .str "0m"),
        ("lastSeen", .num now)]

/-- Embedding of `publishStatus` (lines 159-172); `now` is the
`lastSeen` clock reading and `now2` the `last_updated` one. -/
def publishStatus (selfId : String) (now now2 : Nat) : List Event :=
  [.hset ("agent:" ++ selfId ++ ":status")
     [("data", (agentStatusJson selfId now).render), ("last_updated", toString now2)]]

/-- Embedding of `handleBroadcast` (lines 97-116): parse, log, switch
on `broadcast.type`; every error is caught and logged. -/
def handleBroadcast (selfId : String) (msg : String) (now now2 : Nat) : List Event :=
  match jsonParse msg with
  | none => [.error "Error handling broadcast"]
  | some b =>
    match jsGet (some b) "type" with
    | .typeError => [.log "Received broadcast", .error "Error handling broadcast"]
    | .ok tv =>
      match tv with
      | some (.str ty) =>
        if ty = "shutdown" then
          [.log "Received broadcast", .log "Shutdown signal received"]
        else if ty = "status_check" then
          .log "Received broadcast" :: publishStatus selfId now now2
        else
          [.log "Received broadcast", .log ("Unknown broadcast type: " ++ ty)]
      | other =>
        [.log "Received broadcast", .log ("Unknown broadcast type: " ++ jsTemplate other)]

/-- The handler table of a coordinator; a handler's only
claim-relevant behaviour is whether it resolves (`true`) or
rejects/throws (`false`). -/
abbrev Handlers := String → Option (Json → Bool)

/-- The `try`-block of `handleIncomingTask` (lines 76-91) after a
successful `JSON.parse`: the events performed, and whether an
exception was raised inside the `try` (to be caught at line 92).
Property accesses on the parsed value follow JavaScript semantics
(`jsGet`), so e.g. a message without a `payload` field raises after
the `in_progress` write has already happened. -/
def handleIncomingTaskJ (handlers : Handlers) (task : Json) (t1 t2 : Nat) :
    List Event × Bool :=
  match jsGet (some task) "taskId" with
  | .typeError => ([], true)
  | .ok tid =>
    let evs0 := Event.log ("Received task: " ++ jsTemplate tid) ::
                updateTaskStatusEvents (jsTemplate tid) "in_progress" t1
    match jsGet (some task) "payload" with
    | .typeError => (evs0, true)
    | .ok pv =>
      match jsGet pv "type" with
      | .typeError => (evs0, true)
      | .ok tyv =>
        match tyv with
        | some (.str ty) =>
          match handlers ty with
          | some h =>
            if h task then
              (evs0 ++ updateTaskStatusEvents (jsTemplate tid) "completed" t2, false)
            else (evs0, true)
          | none =>
            (evs0 ++ Event.warn ("No handler for task type: " ++ ty) ::
               updateTaskStatusEvents (jsTemplate tid) "failed" t2, false)
        | other =>
          (evs0 ++ Event.warn ("No handler for task type: " ++ jsTemplate other) ::
             updateTaskStatusEvents (jsTemplate tid) "failed" t2, false)

/-- Embedding of `handleIncomingTask` (lines 75-95) up to the `catch`:
the trace performed and whether the `catch` fired. -/
def handleIncomingTaskRun (handlers : Handlers) (msg : String) (t1 t2 : Nat) :
    List Event × Bool :=
  match jsonParse msg with
  | none => ([], true)
  | some task => handleIncomingTaskJ handlers task t1 t2

/-- Embedding of the full `handleIncomingTask` subscription callback:
the `catch` only logs, so the callback always completes normally. -/
def handleIncomingTask (handlers : Handlers) (msg : String) (t1 t2 : Nat) : List Event :=
  let r := handleIncomingTaskRun handlers msg t1 t2
  r.1 ++ (if r.2 then [Event.error "Error handling task"] else [])

/-- The subscription callback applied to an already-parsed task value:
since `JSON.parse` inverts `JSON.stringify` on JSON values, a
delivered message behaves as its parsed value (used by the lifecycle
system below). -/
def handleIncomingTaskOnJson (handlers : Handlers) (task : Json) (t1 t2 : Nat) :
    List Event :=
  let r := handleIncomingTaskJ handlers task t1 t2
  r.1 ++ (if r.2 then [Event.error "Error handling task"] else [])

/-- Redis `KEYS agent:*:status` glob match: the key is `agent:`,
then any characters, then `:status`. -/
def isStatusKey (k : String) : Bool :=
  decide (k.data.take 6 = "agent:".data) &&
  decide (k.data.drop (k.data.length - 7) = ":status".data) &&
  decide (13 ≤ k.data.length)

/-- The loop body of `getAllAgentStatuses` (lines 178-183): skip keys
with a missing or empty `data` field; `JSON.parse` of a present
malformed `data` field throws, which rejects the whole call (`none`). -/
def collectStatuses : List (String × Hash) → Option (List Json)
  | [] => some []
  | (k, h) :: rest =>
    if isStatusKey k then
      match hashGet h "data" with
      | none => collectStatuses rest
      | some d =>
        if d = "" then collectStatuses rest
        else
          match jsonParse d with
          | none => none
          | some j => (collectStatuses rest).map (fun l => j :: l)
    else collectStatuses rest

/-- Embedding of `getAllAgentStatuses` (lines 174-186). -/
def getAllAgentStatuses (b : Broker) : Option (List Json) :=
  collectStatuses b

/-! ## The distributed locks (`acquireLock` / `releaseLock`) -/
/-- The Redis string keyspace used by the lock methods: key, value
(holder id) and absolute expiry time, with an explicit clock. -/
abbrev LockStore := List (String × String × Nat)

/-- Raw lookup of a lock entry (possibly expired). -/
def lockFind (st : LockStore) (k : String) : Option (String × Nat) :=
  match st.find? (fun p => p.1 = k) with
  | some p => some p.2
  | none => none

/-- Embedding of `GET` at time `now`: expired entries are absent. -/
def getLive (st : LockStore) (k : String) (now : Nat) : Option String :=
  match lockFind st k with
  | some (h, exp) => if now < exp then some h else none
  | none => none

/-- Store a key (replacing any stale entry for it). -/
def lockSet (st : LockStore) (k v : String) (exp : Nat) : LockStore :=
  match st with
  | [] => [(k, v, exp)]
  | (g, e) :: rest => if g = k then (k, v, exp) :: rest else (g, e) :: lockSet rest k v exp

/-- Embedding of `DEL`. -/
def lockDel (st : LockStore) (k : String) : LockStore :=
  st.filter (fun p => ¬ (p.1 = k))

/-- Embedding of `acquireLock` (lines 188-195): one atomic
`SET lock:<resource> selfId NX PX ttl`; returns whether the reply was
`OK`, i.e. whether this call created the key. -/
def acquireLock (selfId : String) (st : LockStore) (resource : String)
    (ttl now : Nat) : Bool × LockStore :=
  match getLive st ("lock:" ++ resource) now with
  | some _ => (false, st)
  | none => (true, lockSet st ("lock:" ++ resource) selfId (now + ttl))

/-- Embedding of `releaseLock` (lines 197-203): `GET` the holder,
`DEL` only when it equals the caller's own agent id. -/
def releaseLock (selfId : String) (st : LockStore) (resource : String)
    (now : Nat) : LockStore :=
  match getLive st ("lock:" ++ resource) now with
  | some owner => if owner = selfId then lockDel st ("lock:" ++ resource) else st
  | none => st

/-- N callers racing for the same resource: the broker serializes
their `SET NX` commands, all observed at the same instant. -/
def raceAcquire (agents : List String) (st : LockStore) (resource : String)
    (ttl now : Nat) : List Bool × LockStore :=
  match agents with
  | [] => ([], st)
  | a :: rest =>
    let r := acquireLock a st resource ttl now
    let rr := raceAcquire rest r.2 resource ttl now
    (r.1 :: rr.1, rr.2)

/-! ## The task lifecycle system

The coordinator-driven task lifecycle: any coordinator may publish a
task; the broker delivers each published message at most once to the
target's subscription callback, and callbacks on one channel run
sequentially, so deliveries are serialized steps.  Broadcast handling
and timer-driven status publication may interleave freely.  The state
records the cumulative event trace and the published-but-undelivered
messages. -/
structure Sys where
  log : List Event
  pending : List PubMsg

/-- The sequence of `status` values written so far for hash key `k`. -/
def histOf (s : Sys) (k : String) : List String :=
  statusWrites s.log k

/-- Reachable states of the lifecycle system.  The `publish` step
carries the source's id-generation contract (time-based + random,
collision-resistant) as the hypothesis that the generated registry
key has no prior writes; `deliver` consumes one undelivered message
and runs the subscription callback on it (with that coordinator's
current handler table, which may differ between deliveries). -/
inductive Reach : Sys → Prop where
  | init : Reach ⟨[], []⟩
  | publish {s : Sys} (target : String) (payload : Json) (priority : Int)
      (now now2 now3 : Nat) (rand : String)
      (hs : Reach s)
      (fresh : statusWrites s.log ("task:" ++ mkTaskId now rand) = []) :
      Reach ⟨s.log ++ (publishTask target payload priority now now2 now3 rand).2,
             s.pending ++ [⟨mkTaskId now rand, target, priority, payload, now2⟩]⟩
  | deliver {s : Sys} (m : PubMsg) (handlers : Handlers) (t1 t2 : Nat)
      (pre post : List PubMsg)
      (hs : Reach s) (hp : s.pending = pre ++ m :: post) :
      Reach ⟨s.log ++ handleIncomingTaskOnJson handlers (taskJson m) t1 t2, pre ++ post⟩
  | broadcast {s : Sys} (selfId msg : String) (now now2 : Nat)
      (hs : Reach s) :
      Reach ⟨s.log ++ handleBroadcast selfId msg now now2, s.pending⟩
  | heartbeat {s : Sys} (selfId : String) (now now2 : Nat)
      (hs : Reach s) :
      Reach ⟨s.log ++ publishStatus selfId now now2, s.pending⟩

/-- The possible per-key status-write histories of the lifecycle. -/
def TaskHist (l : List String) : Prop :=
  l = [] ∨ l = ["pending"] ∨ l = ["pending", "in_progress"] ∨
  l = ["pending", "in_progress", "completed"] ∨
  l = ["pending", "in_progress", "failed"]

/-- The possible status writes of one delivery. -/
def DeliveryTail (l : List String) : Prop :=
  l = ["in_progress"] ∨ l = ["in_progress", "completed"] ∨
  l = ["in_progress", "failed"]

/-- Invariant of the lifecycle system. -/
def Inv (s : Sys) : Prop :=
  (∀ k, TaskHist (histOf s k)) ∧
  (∀ m ∈ s.pending, histOf s ("task:" ++ m.tid) = ["pending"]) ∧
  (s.pending.map PubMsg.tid).Nodup

/-- The events of `handleIncomingTask` up to and including the
`in_progress` write (lines 78-81), for a well-formed task message. -/
def evs0 (m : PubMsg) (t1 : Nat) : List Event :=
  Event.log ("Received task: " ++ m.tid) ::
    updateTaskStatusEvents m.tid "in_progress" t1

/-- Field lookup on a JSON object value (used to state the content of
written snapshots). -/
def getField (j : Json) (f : String) : Option Json :=
  match j with
  | .obj fs => objLookup fs f
  | _ => none

/-- Concrete broker for the C8 witness: a task record carrying a
`data` field. -/
def c8b : Broker := [("task:t1", [("data", "D"), ("status", "pending"), ("created_at", "1")])]

/-- Concrete lock store for the C7 witness: `alice` holds `repo`. -/
def c7st : LockStore := [("lock:repo", "alice", 100)]

/-- The `status_check` broadcast message. -/
def statusCheckMsg : String := "\x7b\"type\":\"status_check\"\x7d"

/-- Concrete scenario for the C3 witness: a published `deploy` task
delivered to a coordinator with an empty handler table. -/
def c3m : PubMsg := ⟨mkTaskId 100 "abc", "agentA", 5, Json.obj [("type", Json.str "deploy")], 101⟩

/-- Concrete scenario for the C4 witness: a `build` handler that
rejects. -/
def c4m : PubMsg := ⟨mkTaskId 100 "abc", "agentA", 5, Json.obj [("type", Json.str "build")], 101⟩

/-- Handler table for the C4 witness: the `build` handler rejects. -/
def c4handlers : Handlers := fun ty => if ty = "build" then some (fun _ => false) else none

/-- The message of the C5 counterexample: valid JSON, but not a Task
(it has no `taskId` and no `payload` field). -/
def c5msg : String := "\x7b\x7d"

/-- The records `getAllAgentStatuses` actually collects: the parsed
`data` of every matching key whose `data` field is present, non-empty
and valid JSON; keys with missing or empty `data` are skipped. -/
def expectedStatuses (b : Broker) : List Json :=
  b.filterMap fun p =>
    if isStatusKey p.1 then
      match hashGet p.2 "data" with
      | none => none
      | some d => if d = "" then none else jsonParse d
    else none

/-- Broker for the C9 counterexample: one malformed status record
next to a perfectly well-formed one. -/
def c9b : Broker :=
  [("agent:a1:status", [("data", "online")]),
   ("agent:a2:status", [("data", (agentStatusJson "a2" 5).render)])]

/-- Broker for the C9 witness: two well-formed records, one matching
key with a missing `data` field, and one non-matching key. -/
def c9okb : Broker :=
  [("agent:a1:status", [("data", (agentStatusJson "a1" 3).render), ("last_updated", "4")]),
   ("agent:a2:status", [("last_updated", "9")]),
   ("task:t1", [("status", "pending")]),
   ("agent:a3:status", [("data", (agentStatusJson "a3" 5).render)])]

/-- Payload of the C2 witness scenario. -/
def c2payload : Json := Json.obj [("type", Json.str "build")]

/-- The task published in the C2 witness scenario. -/
def c2m : PubMsg := ⟨mkTaskId 100 "abc", "agentA", 5, c2payload, 101⟩

/-- Handler table of the C2 witness scenario. -/
def c2handlers : Handlers := fun ty => if ty = "build" then some (fun _ => true) else none

/-- State after publishing the witness task. -/
def c2s1 : Sys := ⟨(publishTask "agentA" c2payload 5 100 101 102 "abc").2, [c2m]⟩

/-- State after the witness task is delivered and completed. -/
def c2s2 : Sys := ⟨c2s1.log ++ handleIncomingTaskOnJson c2handlers (taskJson c2m) 7 8, []⟩

/-! ## Theorems -/

theorem statusWrites_append (l1 l2 : List Event) (k : String) :
    statusWrites (l1 ++ l2) k = statusWrites l1 k ++ statusWrites l2 k := by
  simp [statusWrites]

theorem statusWrites_publishTask (target : String) (payload : Json) (priority : Int)
    (now now2 now3 : Nat) (rand : String) (k : String) :
    statusWrites (publishTask target payload priority now now2 now3 rand).2 k =
      if "task:" ++ mkTaskId now rand = k then ["pending"] else [] := by
  by_cases hk : "task:" ++ mkTaskId now rand = k <;>
    simp [publishTask, statusWrites, hk]

theorem statusWrites_publishStatus (selfId : String) (now now2 : Nat) (k : String) :
    statusWrites (publishStatus selfId now now2) k = [] := by
  by_cases hk : "agent:" ++ selfId ++ ":status" = k <;>
    simp [publishStatus, statusWrites, hk]

theorem statusWrites_handleBroadcast (selfId msg : String) (now now2 : Nat) (k : String) :
    statusWrites (handleBroadcast selfId msg now now2) k = [] := by
  unfold handleBroadcast
  rcases hj : jsonParse msg with _ | b
  · simp [statusWrites]
  · rcases hb : jsGet (some b) "type" with _ | tv
    · simp [hb, statusWrites]
    · rcases tv with _ | v
      · simp [hb, statusWrites]
      · rcases v with _ | vb | vn | vs | ve | vf
        case str =>
          by_cases h1 : vs = "shutdown"
          · simp [hb, h1, statusWrites]
          · by_cases h2 : vs = "status_check"
            · have hps := statusWrites_publishStatus selfId now now2 k
              simp [hb, h1, h2, statusWrites] at hps ⊢
              exact hps
            · simp [hb, h1, h2, statusWrites]
        all_goals simp [hb, statusWrites]

theorem jsGet_taskJson_taskId (m : PubMsg) :
    jsGet (some (taskJson m)) "taskId" = .ok (some (.str m.tid)) := rfl

theorem jsGet_taskJson_payload (m : PubMsg) :
    jsGet (some (taskJson m)) "payload" = .ok (some m.payload) := rfl

theorem jsTemplate_str (s : String) : jsTemplate (some (.str s)) = s := rfl

/-- Case analysis of the subscription callback's `try`-block on a
well-formed published task: it either raises after the `in_progress`
write (handler threw, or the payload was `null`), completes the task,
or marks it failed after a warning. -/
theorem handleJ_cases (handlers : Handlers) (m : PubMsg) (t1 t2 : Nat) :
    handleIncomingTaskJ handlers (taskJson m) t1 t2 = (evs0 m t1, true) ∨
    handleIncomingTaskJ handlers (taskJson m) t1 t2 =
      (evs0 m t1 ++ updateTaskStatusEvents m.tid "completed" t2, false) ∨
    ∃ w, handleIncomingTaskJ handlers (taskJson m) t1 t2 =
      (evs0 m t1 ++ Event.warn w :: updateTaskStatusEvents m.tid "failed" t2, false) := by
  unfold handleIncomingTaskJ
  rw [jsGet_taskJson_taskId, jsGet_taskJson_payload]
  simp only [jsTemplate_str]
  rcases hp : m.payload with _ | pb | pn | ps | pe | pf
  · exact Or.inl rfl
  · exact Or.inr (Or.inr ⟨_, rfl⟩)
  · exact Or.inr (Or.inr ⟨_, rfl⟩)
  · exact Or.inr (Or.inr ⟨_, rfl⟩)
  · exact Or.inr (Or.inr ⟨_, rfl⟩)
  · show _ ∨ _ ∨ _
    simp only [jsGet]
    rcases ht : objLookup pf "type" with _ | tv
    · exact Or.inr (Or.inr ⟨_, rfl⟩)
    · rcases tv with _ | tb | tn | ts | te | tf
      case str =>
        rcases hh : handlers ts with _ | hd
        · simp only [hh]
          exact Or.inr (Or.inr ⟨_, rfl⟩)
        · simp only [hh]
          by_cases hr : hd (taskJson m) = true
          · rw [if_pos hr]
            exact Or.inr (Or.inl rfl)
          · rw [if_neg hr]
            exact Or.inl rfl
      all_goals exact Or.inr (Or.inr ⟨_, rfl⟩)

theorem statusWrites_evs0 (m : PubMsg) (t1 : Nat) (k : String) :
    statusWrites (evs0 m t1) k =
      if "task:" ++ m.tid = k then ["in_progress"] else [] := by
  by_cases hk : "task:" ++ m.tid = k <;>
    simp [evs0, updateTaskStatusEvents, statusWrites, hk]

theorem statusWrites_upd (taskId status : String) (t : Nat) (k : String) :
    statusWrites (updateTaskStatusEvents taskId status t) k =
      if "task:" ++ taskId = k then [status] else [] := by
  by_cases hk : "task:" ++ taskId = k <;>
    simp [updateTaskStatusEvents, statusWrites, hk]

theorem statusWrites_deliver (handlers : Handlers) (m : PubMsg) (t1 t2 : Nat) :
    ∃ wr, DeliveryTail wr ∧ ∀ k,
      statusWrites (handleIncomingTaskOnJson handlers (taskJson m) t1 t2) k =
        if "task:" ++ m.tid = k then wr else [] := by
  rcases handleJ_cases handlers m t1 t2 with hc | hc | ⟨w, hc⟩
  · refine ⟨["in_progress"], Or.inl rfl, fun k => ?_⟩
    simp only [handleIncomingTaskOnJson, hc, if_pos]
    rw [show ((evs0 m t1, true) : List Event × Bool).1 ++ [Event.error "Error handling task"] =
          evs0 m t1 ++ [Event.error "Error handling task"] from rfl,
        statusWrites_append, statusWrites_evs0]
    by_cases hk : "task:" ++ m.tid = k <;> simp [hk, statusWrites]
  · refine ⟨["in_progress", "completed"], Or.inr (Or.inl rfl), fun k => ?_⟩
    simp only [handleIncomingTaskOnJson, hc]
    rw [show ((evs0 m t1 ++ updateTaskStatusEvents m.tid "completed" t2, false) :
          List Event × Bool).1 ++ (if false then [Event.error "Error handling task"] else []) =
          evs0 m t1 ++ updateTaskStatusEvents m.tid "completed" t2 from by simp,
        statusWrites_append, statusWrites_evs0, statusWrites_upd]
    by_cases hk : "task:" ++ m.tid = k <;> simp [hk]
  · refine ⟨["in_progress", "failed"], Or.inr (Or.inr rfl), fun k => ?_⟩
    simp only [handleIncomingTaskOnJson, hc]
    rw [show ((evs0 m t1 ++ Event.warn w :: updateTaskStatusEvents m.tid "failed" t2, false) :
          List Event × Bool).1 ++ (if false then [Event.error "Error handling task"] else []) =
          evs0 m t1 ++ Event.warn w :: updateTaskStatusEvents m.tid "failed" t2 from by simp,
        statusWrites_append]
    rw [show Event.warn w :: updateTaskStatusEvents m.tid "failed" t2 =
          [Event.warn w] ++ updateTaskStatusEvents m.tid "failed" t2 from rfl,
        statusWrites_append, statusWrites_evs0, statusWrites_upd]
    by_cases hk : "task:" ++ m.tid = k <;> simp [hk, statusWrites]

theorem histOf_mk (l : List Event) (p : List PubMsg) (k : String) :
    histOf ⟨l, p⟩ k = statusWrites l k := rfl

theorem taskKey_inj {a b : String} (h : "task:" ++ a = "task:" ++ b) : a = b := by
  have hd : ("task:" ++ a).data = ("task:" ++ b).data := congrArg String.data h
  simp only [String.data_append] at hd
  have := List.append_cancel_left hd
  exact String.ext this

/-- The invariant holds in every reachable state. -/
theorem reach_inv {s0 : Sys} (h : Reach s0) : Inv s0 := by
  induction h with
  | init =>
    refine ⟨fun k => Or.inl rfl, by simp, by simp⟩
  | @publish s target payload priority now now2 now3 rand hs fresh ih =>
    obtain ⟨ih1, ih2, ih3⟩ := ih
    -- a pending message's key never coincides with the fresh key
    have hnotpend : ∀ m ∈ s.pending, m.tid ≠ mkTaskId now rand := by
      intro m hm heq
      have h2 := ih2 m hm
      rw [heq] at h2
      have fresh2 : histOf s ("task:" ++ mkTaskId now rand) = [] := fresh
      exact absurd (fresh2.symm.trans h2) (by simp)
    refine ⟨?_, ?_, ?_⟩
    · intro k
      rw [histOf_mk, statusWrites_append, statusWrites_publishTask]
      split
      next heq =>
        rw [← heq, fresh]
        exact Or.inr (Or.inl rfl)
      next =>
        simpa using ih1 k
    · intro m hm
      simp only [List.mem_append, List.mem_singleton] at hm
      rw [histOf_mk, statusWrites_append, statusWrites_publishTask]
      rcases hm with hm | hm
      · have hne : ¬ ("task:" ++ mkTaskId now rand = "task:" ++ m.tid) := fun heq =>
          hnotpend m hm (taskKey_inj heq).symm
        rw [if_neg hne]
        simpa using ih2 m hm
      · subst hm
        simp [fresh]
    · simp only [List.map_append, List.map_cons, List.map_nil]
      rw [List.nodup_append]
      refine ⟨ih3, by simp, ?_⟩
      intro x hx
      simp only [List.mem_map] at hx
      obtain ⟨m, hm, hmx⟩ := hx
      simp only [List.mem_singleton]
      intro hcon
      exact hnotpend m hm (by rw [hmx, hcon])
  | @deliver s m handlers t1 t2 pre post hs hp ih =>
    obtain ⟨ih1, ih2, ih3⟩ := ih
    obtain ⟨wr, hwr, hwk⟩ := statusWrites_deliver handlers m t1 t2
    have hmem : m ∈ s.pending := by rw [hp]; simp
    have hpendhist := ih2 m hmem
    have hnd : (m.tid :: (pre.map PubMsg.tid ++ post.map PubMsg.tid)).Nodup := by
      have := ih3
      rw [hp] at this
      simp only [List.map_append, List.map_cons] at this
      exact List.nodup_middle.mp this
    have hrest_tid : ∀ m2 ∈ pre ++ post, m2.tid ≠ m.tid := by
      intro m2 hm2 heq
      have hnotin := (List.nodup_cons.mp hnd).1
      apply hnotin
      rw [← heq]
      simp only [← List.map_append]
      exact List.mem_map_of_mem PubMsg.tid hm2
    refine ⟨?_, ?_, ?_⟩
    · intro k
      rw [histOf_mk, statusWrites_append, hwk k]
      split
      next heq =>
        rw [← heq]
        have : statusWrites s.log ("task:" ++ m.tid) = ["pending"] := hpendhist
        rw [this]
        rcases hwr with hw | hw | hw <;> rw [hw]
        · exact Or.inr (Or.inr (Or.inl rfl))
        · exact Or.inr (Or.inr (Or.inr (Or.inl rfl)))
        · exact Or.inr (Or.inr (Or.inr (Or.inr rfl)))
      next =>
        simpa using ih1 k
    · intro m2 hm2
      have hm2p : m2 ∈ s.pending := by rw [hp]; rcases List.mem_append.mp hm2 with h2 | h2 <;> simp [h2]
      rw [histOf_mk, statusWrites_append, hwk _]
      have hne : ¬ ("task:" ++ m.tid = "task:" ++ m2.tid) := fun heq =>
        hrest_tid m2 hm2 (taskKey_inj heq).symm
      rw [if_neg hne]
      simpa using ih2 m2 hm2p
    · have := (List.nodup_cons.mp hnd).2
      simpa using this
  | @broadcast s selfId msg now now2 hs ih =>
    obtain ⟨ih1, ih2, ih3⟩ := ih
    refine ⟨?_, ?_, ih3⟩
    · intro k
      rw [histOf_mk, statusWrites_append, statusWrites_handleBroadcast]
      simpa using ih1 k
    · intro m2 hm2
      rw [histOf_mk, statusWrites_append, statusWrites_handleBroadcast]
      simpa using ih2 m2 hm2
  | @heartbeat s selfId now now2 hs ih =>
    obtain ⟨ih1, ih2, ih3⟩ := ih
    refine ⟨?_, ?_, ih3⟩
    · intro k
      rw [histOf_mk, statusWrites_append, statusWrites_publishStatus]
      simpa using ih1 k
    · intro m2 hm2
      rw [histOf_mk, statusWrites_append, statusWrites_publishStatus]
      simpa using ih2 m2 hm2

/-! ## Support lemmas on the broker and lock models -/
theorem hashGet_setField (h : Hash) (f v g : String) :
    hashGet (hashSetField h f v) g = if f = g then some v else hashGet h g := by
  induction h with
  | nil =>
    by_cases hfg : f = g <;> simp [hashSetField, hashGet, hfg]
  | cons p rest ih =>
    obtain ⟨a, w⟩ := p
    by_cases haf : a = f
    · subst haf
      by_cases hfg : a = g <;> simp [hashSetField, hashGet, hfg]
    · by_cases hag : a = g
      · subst hag
        have hfg : ¬ (f = a) := fun hc => haf hc.symm
        simp [hashSetField, haf, hashGet, hfg]
      · by_cases hfg : f = g <;>
          simp [hashSetField, haf, hashGet, hag, hfg] <;>
          simpa [hashGet, hfg] using ih

theorem brokerHash_hset_same (b : Broker) (k : String) (fs : List (String × String)) :
    brokerHash (brokerHSet b k fs) k = hashSetFields (brokerHash b k) fs := by
  induction b with
  | nil => simp [brokerHSet, brokerHash]
  | cons p rest ih =>
    obtain ⟨a, h⟩ := p
    by_cases hak : a = k
    · subst hak
      simp [brokerHSet, brokerHash]
    · simpa [brokerHSet, hak, brokerHash] using ih

theorem brokerHash_hset_other (b : Broker) (k : String) (fs : List (String × String))
    (k2 : String) (hne : k ≠ k2) :
    brokerHash (brokerHSet b k fs) k2 = brokerHash b k2 := by
  induction b with
  | nil => simp [brokerHSet, brokerHash, hne]
  | cons p rest ih =>
    obtain ⟨a, h⟩ := p
    by_cases hak : a = k
    · subst hak
      simp [brokerHSet, brokerHash, hne]
    · by_cases hak2 : a = k2
      · subst hak2
        simp [brokerHSet, hak, brokerHash]
      · simpa [brokerHSet, hak, brokerHash, hak2] using ih

theorem applyEvents_append (b : Broker) (l1 l2 : List Event) :
    applyEvents b (l1 ++ l2) = applyEvents (applyEvents b l1) l2 := by
  simp [applyEvents, List.foldl_append]

/-- The registry status after one `updateTaskStatus` call is the
written status, for any prior broker contents. -/
theorem getTaskStatus_after_upd (b : Broker) (tid status : String) (t : Nat) :
    getTaskStatus (applyEvents b (updateTaskStatusEvents tid status t)) tid = some status := by
  simp [updateTaskStatusEvents, applyEvents, applyEvent, getTaskStatus,
        brokerHash_hset_same, hashSetFields, hashGet_setField]

theorem lockFind_set_same (st : LockStore) (k v : String) (exp : Nat) :
    lockFind (lockSet st k v exp) k = some (v, exp) := by
  induction st with
  | nil => simp [lockSet, lockFind]
  | cons p rest ih =>
    obtain ⟨a, e⟩ := p
    by_cases hak : a = k
    · subst hak
      simp [lockSet, lockFind]
    · simp [lockSet, hak, lockFind]
      simpa [lockFind] using ih

theorem lockFind_del (st : LockStore) (k : String) :
    lockFind (lockDel st k) k = none := by
  induction st with
  | nil => simp [lockDel, lockFind]
  | cons p rest ih =>
    obtain ⟨a, e⟩ := p
    by_cases hak : a = k
    · subst hak
      simpa [lockDel, lockFind] using ih
    · simp [lockDel, hak, lockFind]
      simpa [lockDel, lockFind] using ih

/-- Once a live entry exists, every further serialized `SET NX` at the
same instant fails and leaves the store unchanged. -/
theorem raceAcquire_live (agents : List String) (st : LockStore) (resource : String)
    (ttl now : Nat) (holder : String)
    (hl : getLive st ("lock:" ++ resource) now = some holder) :
    raceAcquire agents st resource ttl now = (agents.map (fun _ => false), st) := by
  induction agents with
  | nil => simp [raceAcquire]
  | cons a rest ih =>
    simp only [raceAcquire, acquireLock, hl, ih]
    simp

/-! ## Claim theorems -/
theorem mkTaskId_ne_empty (now : Nat) (rand : String) : mkTaskId now rand ≠ "" := by
  intro h
  have hlen := congrArg String.length h
  simp only [mkTaskId, String.length_append] at hlen
  rw [show ("task:" : String).length = 5 from rfl,
      show ("" : String).length = 0 from rfl] at hlen
  omega

/-- C1: `publishTask` returns a non-empty task id; its trace is exactly
the registry hash write at `task:<taskId>` (with `status` `pending` and
a `created_at` field) followed — strictly afterwards — by the publish
on `agent:<targetAgent>:tasks`; and applying the trace to any broker
state, `getTaskStatus` of the returned id yields `pending`. -/
theorem c1_publishTask (b : Broker) (target : String) (payload : Json)
    (priority : Int) (now now2 now3 : Nat) (rand : String) :
    let r := publishTask target payload priority now now2 now3 rand
    r.1 ≠ "" ∧
    r.2 = [Event.hset ("task:" ++ r.1)
             [("data", (taskJson ⟨r.1, target, priority, payload, now2⟩).render),
              ("status", "pending"), ("created_at", toString now3)],
           Event.publish ("agent:" ++ target ++ ":tasks")
             (taskJson ⟨r.1, target, priority, payload, now2⟩).render,
           Event.log ("Published task " ++ r.1 ++ " to " ++ target)] ∧
    getTaskStatus (applyEvents b r.2) r.1 = some "pending" := by
  refine ⟨mkTaskId_ne_empty now rand, rfl, ?_⟩
  simp [publishTask, applyEvents, applyEvent, getTaskStatus,
        brokerHash_hset_same, hashSetFields, hashGet_setField]

/-- C8: `updateTaskStatus` is a single `hSet` writing exactly the
`status` and `updated_at` fields together; every other field of the
task's hash record (in particular `data`) and every other key of the
broker are left unchanged. -/
theorem c8_updateTaskStatus_frame (b : Broker) (taskId status : String) (now : Nat)
    (f : String) (hf1 : f ≠ "status") (hf2 : f ≠ "updated_at") :
    updateTaskStatusEvents taskId status now =
      [Event.hset ("task:" ++ taskId) [("status", status), ("updated_at", toString now)]] ∧
    getTaskStatus (applyEvents b (updateTaskStatusEvents taskId status now)) taskId =
      some status ∧
    hashGet (brokerHash (applyEvents b (updateTaskStatusEvents taskId status now))
        ("task:" ++ taskId)) "updated_at" = some (toString now) ∧
    hashGet (brokerHash (applyEvents b (updateTaskStatusEvents taskId status now))
        ("task:" ++ taskId)) f =
      hashGet (brokerHash b ("task:" ++ taskId)) f ∧
    ∀ k, k ≠ "task:" ++ taskId →
      brokerHash (applyEvents b (updateTaskStatusEvents taskId status now)) k =
        brokerHash b k := by
  refine ⟨rfl, getTaskStatus_after_upd b taskId status now, ?_, ?_, ?_⟩
  · simp [updateTaskStatusEvents, applyEvents, applyEvent,
          brokerHash_hset_same, hashSetFields, hashGet_setField]
  · simp [updateTaskStatusEvents, applyEvents, applyEvent,
          brokerHash_hset_same, hashSetFields, hashGet_setField,
          Ne.symm hf1, Ne.symm hf2]
  · intro k hk
    simp [updateTaskStatusEvents, applyEvents, applyEvent]
    exact brokerHash_hset_other b ("task:" ++ taskId) _ k (Ne.symm hk)

theorem c8_witness :
    hashGet (brokerHash (applyEvents c8b (updateTaskStatusEvents "t1" "completed" 9))
        "task:t1") "data" = hashGet (brokerHash c8b "task:t1") "data" ∧
    getTaskStatus (applyEvents c8b (updateTaskStatusEvents "t1" "completed" 9)) "t1" =
      some "completed" :=
  ⟨(c8_updateTaskStatus_frame c8b "t1" "completed" 9 "data" (by decide) (by decide)).2.2.2.1,
   (c8_updateTaskStatus_frame c8b "t1" "completed" 9 "data" (by decide) (by decide)).2.1⟩

/-- C6: `acquireLock` is a single atomic set-if-absent-with-expiry
attempt: it returns `true` iff the key `lock:<resource>` was absent
(no live entry), in which case the new store holds the caller as
holder with expiry `now + ttl`; consequently, among `N` callers racing
for the same fresh resource, exactly the first serialized caller
receives `true` and all others `false`. -/
theorem c6_acquireLock (st : LockStore) (resource : String) (ttl now : Nat) (a : String) :
    ((acquireLock a st resource ttl now).1 = true ↔
       getLive st ("lock:" ++ resource) now = none) ∧
    (getLive st ("lock:" ++ resource) now = none →
       lockFind (acquireLock a st resource ttl now).2 ("lock:" ++ resource) =
         some (a, now + ttl)) ∧
    (∀ rest : List String, getLive st ("lock:" ++ resource) now = none → 0 < ttl →
       (raceAcquire (a :: rest) st resource ttl now).1 =
         true :: rest.map (fun _ => false)) := by
  refine ⟨?_, ?_, ?_⟩
  · rcases h : getLive st ("lock:" ++ resource) now with _ | x <;>
      simp [acquireLock, h]
  · intro h
    simp [acquireLock, h, lockFind_set_same]
  · intro rest h httl
    have hlive : getLive (lockSet st ("lock:" ++ resource) a (now + ttl))
        ("lock:" ++ resource) now = some a := by
      simp [getLive, lockFind_set_same]
      omega
    simp only [raceAcquire, acquireLock, h]
    rw [raceAcquire_live rest _ resource ttl now a hlive]

theorem c6_witness :
    (raceAcquire ["alice", "bob", "carol"] [] "repo" 30000 0).1 =
      [true, false, false] := by
  have h := (c6_acquireLock [] "repo" 30000 0 "alice").2.2 ["bob", "carol"] rfl (by decide)
  simpa using h

/-- C7: `releaseLock` called by a non-holder is a no-op leaving the
whole lock store (in particular the other agent's lease) unchanged,
and the rightful holder's later release still deletes the key. -/
theorem c7_releaseLock (st : LockStore) (resource : String) (now : Nat)
    (caller holder : String)
    (hh : getLive st ("lock:" ++ resource) now = some holder)
    (hne : caller ≠ holder) :
    releaseLock caller st resource now = st ∧
    lockFind (releaseLock holder (releaseLock caller st resource now) resource now)
      ("lock:" ++ resource) = none := by
  have h1 : releaseLock caller st resource now = st := by
    simp [releaseLock, hh, Ne.symm hne]
  refine ⟨h1, ?_⟩
  rw [h1]
  simp [releaseLock, hh, lockFind_del]

theorem c7_witness :
    releaseLock "bob" c7st "repo" 0 = c7st ∧
    lockFind (releaseLock "alice" (releaseLock "bob" c7st "repo" 0) "repo" 0)
      "lock:repo" = none :=
  c7_releaseLock c7st "repo" 0 "bob" "alice" (by decide) (by decide)

/-- C10: every `publishStatus` call writes a snapshot whose `status`
is `online`, `tasksCompleted` is `0`, `uptime` is `0m`, with no
`currentTask` field, regardless of activity; only `lastSeen` and
`last_updated` carry the clock readings.  A `status_check` broadcast
triggers exactly such a call. -/
theorem c10_publishStatus (selfId : String) (now now2 : Nat) :
    publishStatus selfId now now2 =
      [Event.hset ("agent:" ++ selfId ++ ":status")
         [("data", (agentStatusJson selfId now).render),
          ("last_updated", toString now2)]] ∧
    getField (agentStatusJson selfId now) "status" = some (.str "online") ∧
    getField (agentStatusJson selfId now) "tasksCompleted" = some (.num 0) ∧
    getField (agentStatusJson selfId now) "uptime" = some (.str "0m") ∧
    getField (agentStatusJson selfId now) "currentTask" = none ∧
    getField (agentStatusJson selfId now) "lastSeen" = some (.num now) ∧
    handleBroadcast selfId statusCheckMsg now now2 =
      Event.log "Received broadcast" :: publishStatus selfId now now2 :=
  ⟨rfl, rfl, rfl, rfl, rfl, rfl, rfl⟩

/-- C3: for a well-formed task message (it parses to a published-task
value whose `payload.type` is a string) with no registered handler for
that type, the callback's `try`-block completes without raising
(`false` component: nothing reaches the `catch`), its trace is exactly
the received-log, the `in_progress` write, the warning, and the
`failed` write, and the resulting registry status is `failed`. -/
theorem c3_no_handler_failed (handlers : Handlers) (msg : String) (m : PubMsg)
    (ty : String) (t1 t2 : Nat) (b : Broker)
    (hparse : jsonParse msg = some (taskJson m))
    (hty : jsGet (some m.payload) "type" = .ok (some (.str ty)))
    (hno : handlers ty = none) :
    handleIncomingTaskRun handlers msg t1 t2 =
      (evs0 m t1 ++ Event.warn ("No handler for task type: " ++ ty) ::
         updateTaskStatusEvents m.tid "failed" t2, false) ∧
    getTaskStatus (applyEvents b (handleIncomingTask handlers msg t1 t2)) m.tid =
      some "failed" := by
  have hJ : handleIncomingTaskJ handlers (taskJson m) t1 t2 =
      (evs0 m t1 ++ Event.warn ("No handler for task type: " ++ ty) ::
         updateTaskStatusEvents m.tid "failed" t2, false) := by
    unfold handleIncomingTaskJ
    rw [jsGet_taskJson_taskId, jsGet_taskJson_payload]
    simp only [jsTemplate_str]
    rcases hp : m.payload with _ | pb | pn | ps | pe | pf
    · simp [jsGet, hp] at hty
    · simp [jsGet, hp] at hty
    · simp [jsGet, hp] at hty
    · simp [jsGet, hp] at hty
    · simp [jsGet, hp] at hty
    · rw [hp] at hty
      simp only [jsGet] at hty ⊢
      rcases hty with hty
      injection hty with hty2
      simp only [hty2, hno]
      simp [evs0]
  have hrun : handleIncomingTaskRun handlers msg t1 t2 =
      (evs0 m t1 ++ Event.warn ("No handler for task type: " ++ ty) ::
         updateTaskStatusEvents m.tid "failed" t2, false) := by
    simp only [handleIncomingTaskRun, hparse, hJ]
  refine ⟨hrun, ?_⟩
  have hful : handleIncomingTask handlers msg t1 t2 =
      (evs0 m t1 ++ [Event.warn ("No handler for task type: " ++ ty)]) ++
        updateTaskStatusEvents m.tid "failed" t2 := by
    simp [handleIncomingTask, hrun]
  rw [hful, applyEvents_append]
  exact getTaskStatus_after_upd _ m.tid "failed" t2

theorem c3_witness :
    getTaskStatus
      (applyEvents [] (handleIncomingTask (fun _ => none) (taskJson c3m).render 7 8))
      c3m.tid = some "failed" :=
  (c3_no_handler_failed (fun _ => none) (taskJson c3m).render c3m "deploy" 7 8 []
    rfl rfl rfl).2

/-- C4: for a well-formed task message whose registered handler
rejects, the error is caught and logged (the callback's trace ends
with the caught-error log and the callback completes), and no status
is written after `in_progress`: the only status write is
`in_progress`, so the task's registry status stays `in_progress` —
neither `completed` nor `failed` is written. -/
theorem c4_handler_throw (handlers : Handlers) (msg : String) (m : PubMsg) (ty : String)
    (hd : Json → Bool) (t1 t2 : Nat) (b : Broker)
    (hparse : jsonParse msg = some (taskJson m))
    (hty : jsGet (some m.payload) "type" = .ok (some (.str ty)))
    (hh : handlers ty = some hd) (hthrow : hd (taskJson m) = false) :
    handleIncomingTask handlers msg t1 t2 =
      evs0 m t1 ++ [Event.error "Error handling task"] ∧
    statusWrites (handleIncomingTask handlers msg t1 t2) ("task:" ++ m.tid) =
      ["in_progress"] ∧
    getTaskStatus (applyEvents b (handleIncomingTask handlers msg t1 t2)) m.tid =
      some "in_progress" := by
  have hJ : handleIncomingTaskJ handlers (taskJson m) t1 t2 = (evs0 m t1, true) := by
    unfold handleIncomingTaskJ
    rw [jsGet_taskJson_taskId, jsGet_taskJson_payload]
    simp only [jsTemplate_str]
    rcases hp : m.payload with _ | pb | pn | ps | pe | pf
    · simp [jsGet, hp] at hty
    · simp [jsGet, hp] at hty
    · simp [jsGet, hp] at hty
    · simp [jsGet, hp] at hty
    · simp [jsGet, hp] at hty
    · rw [hp] at hty
      simp only [jsGet] at hty ⊢
      rcases hty with hty
      injection hty with hty2
      simp only [hty2, hh, hthrow]
      simp [evs0]
  have hrun : handleIncomingTaskRun handlers msg t1 t2 = (evs0 m t1, true) := by
    simp only [handleIncomingTaskRun, hparse, hJ]
  have hful : handleIncomingTask handlers msg t1 t2 =
      evs0 m t1 ++ [Event.error "Error handling task"] := by
    simp [handleIncomingTask, hrun]
  refine ⟨hful, ?_, ?_⟩
  · rw [hful, statusWrites_append, statusWrites_evs0]
    simp [statusWrites]
  · rw [hful]
    have happ : applyEvents b (evs0 m t1 ++ [Event.error "Error handling task"]) =
        applyEvents b (updateTaskStatusEvents m.tid "in_progress" t1) := by
      simp [evs0, updateTaskStatusEvents, applyEvents, applyEvent]
    rw [happ]
    exact getTaskStatus_after_upd b m.tid "in_progress" t1

theorem c4_witness :
    statusWrites (handleIncomingTask c4handlers (taskJson c4m).render 7 8)
      ("task:" ++ c4m.tid) = ["in_progress"] ∧
    getTaskStatus (applyEvents [] (handleIncomingTask c4handlers (taskJson c4m).render 7 8))
      c4m.tid = some "in_progress" :=
  ⟨(c4_handler_throw c4handlers (taskJson c4m).render c4m "build" (fun _ => false) 7 8 []
      rfl rfl rfl rfl).2.1,
   (c4_handler_throw c4handlers (taskJson c4m).render c4m "build" (fun _ => false) 7 8 []
      rfl rfl rfl rfl).2.2⟩

/-- C5 counterexample: the message `\x7b\x7d` does not parse as a Task —
it parses to an empty object with no `taskId` — yet the subscription
callback performs a task-registry write: the hash at `task:undefined`
receives an `in_progress` status before the `TypeError` on
`task.payload.type` is caught.  This refutes the claim that every
message failing to parse as a Task is dropped with no registry
write. -/
theorem c5_counterexample :
    jsonParse c5msg = some (Json.obj []) ∧
    getField (Json.obj []) "taskId" = none ∧
    hsetEvents (handleIncomingTask (fun _ => none) c5msg 7 8) =
      [Event.hset "task:undefined" [("status", "in_progress"), ("updated_at", "7")]] :=
  ⟨rfl, rfl, rfl⟩

/-- C5 (amended): for every message that is not valid JSON —
`JSON.parse` throws — the callback logs the error and drops the
message: no registry write occurs and the callback completes
normally.  (Messages that are valid JSON but not well-formed Tasks can
still cause a registry write, as the counterexample shows.) -/
theorem c5_invalid_json_drops (handlers : Handlers) (msg : String) (t1 t2 : Nat)
    (hbad : jsonParse msg = none) :
    handleIncomingTask handlers msg t1 t2 = [Event.error "Error handling task"] ∧
    hsetEvents (handleIncomingTask handlers msg t1 t2) = [] := by
  have hrun : handleIncomingTaskRun handlers msg t1 t2 = ([], true) := by
    unfold handleIncomingTaskRun
    rw [hbad]
  constructor
  · simp [handleIncomingTask, hrun]
  · simp [handleIncomingTask, hrun, hsetEvents]

theorem c5_witness :
    handleIncomingTask (fun _ => none) "not json" 7 8 =
      [Event.error "Error handling task"] ∧
    hsetEvents (handleIncomingTask (fun _ => none) "not json" 7 8) = [] :=
  c5_invalid_json_drops (fun _ => none) "not json" 7 8 rfl

/-- C9 counterexample: with one key whose `data` is present but not
valid JSON, `getAllAgentStatuses` does not skip it — `JSON.parse`
throws and the whole call rejects (`none`), returning nothing, not
even the well-formed record next to it.  This refutes the claim that
malformed `data` is silently skipped. -/
theorem c9_counterexample :
    getAllAgentStatuses c9b = none ∧
    hashGet (brokerHash c9b "agent:a1:status") "data" = some "online" ∧
    jsonParse "online" = none :=
  ⟨rfl, rfl, rfl⟩

/-- C9 (amended): `getAllAgentStatuses` scans the keys matching
`agent:*:status` and returns exactly the parsed `data` of those whose
`data` field is present, non-empty and valid JSON, silently skipping
keys whose `data` is missing or empty; but if any matching key's
`data` is present and malformed, the whole call throws instead of
skipping it. -/
theorem c9_skip_missing (b : Broker)
    (hok : ∀ p ∈ b, isStatusKey p.1 = true → ∀ d, hashGet p.2 "data" = some d →
           d ≠ "" → jsonParse d ≠ none) :
    getAllAgentStatuses b = some (expectedStatuses b) := by
  induction b with
  | nil => rfl
  | cons p rest ih =>
    obtain ⟨k, h⟩ := p
    have hok2 : ∀ q ∈ rest, isStatusKey q.1 = true → ∀ d, hashGet q.2 "data" = some d →
        d ≠ "" → jsonParse d ≠ none :=
      fun q hq => hok q (List.mem_cons_of_mem _ hq)
    have ih2 := ih hok2
    by_cases hk : isStatusKey k = true
    · rcases hd : hashGet h "data" with _ | d
      · simpa [getAllAgentStatuses, collectStatuses, expectedStatuses, hk, hd,
               List.filterMap_cons] using ih2
      · by_cases hde : d = ""
        · subst hde
          simpa [getAllAgentStatuses, collectStatuses, expectedStatuses, hk, hd,
                 List.filterMap_cons] using ih2
        · rcases hp : jsonParse d with _ | j
          · exact absurd hp (hok (k, h) (List.mem_cons_self _ _) hk d hd hde)
          · simp only [getAllAgentStatuses, collectStatuses, expectedStatuses, hk, hd,
                       hde, hp, List.filterMap_cons, if_pos, if_neg]
            simp only [getAllAgentStatuses, expectedStatuses] at ih2
            simp [ih2, hde]
    · simpa [getAllAgentStatuses, collectStatuses, expectedStatuses, hk,
             List.filterMap_cons] using ih2

theorem c9_witness :
    getAllAgentStatuses c9okb = some [agentStatusJson "a1" 3, agentStatusJson "a3" 5] := by
  have h := c9_skip_missing c9okb (by
    intro p hp hk d hd hde
    simp only [c9okb, List.mem_cons, List.not_mem_nil, or_false] at hp
    rcases hp with h | h | h | h <;> subst h
    · simp only [hashGet, List.find?] at hd
      simp at hd
      subst hd
      intro hc
      have hr : jsonParse (agentStatusJson "a1" 3).render = some (agentStatusJson "a1" 3) := rfl
      rw [hr] at hc
      cases hc
    · simp [hashGet, List.find?] at hd
    · exact absurd hk (by decide)
    · simp only [hashGet, List.find?] at hd
      simp at hd
      subst hd
      intro hc
      have hr : jsonParse (agentStatusJson "a3" 5).render = some (agentStatusJson "a3" 5) := rfl
      rw [hr] at hc
      cases hc)
  rw [h]
  rfl

/-- In every possible per-key history, no status write follows a
terminal one and no `pending` write follows any other write. -/
theorem taskHist_pairs {l : List String} (hl : TaskHist l) (l1 l2 : List String)
    (a bb : String) (he : l = l1 ++ a :: bb :: l2) :
    bb ≠ "pending" ∧ a ≠ "completed" ∧ a ≠ "failed" := by
  rcases hl with h | h | h | h | h <;> subst h
  · rcases l1 with _ | ⟨x, l1⟩ <;> simp_all
  · rcases l1 with _ | ⟨x, l1⟩ <;> simp_all
  · rcases l1 with _ | ⟨x, _ | ⟨y, l1⟩⟩
    · simp only [List.nil_append, List.cons.injEq] at he
      obtain ⟨ha, hb, hl2⟩ := he
      subst ha
      subst hb
      decide
    · simp only [List.cons_append, List.cons.injEq] at he
      simp at he
    · simp at he
  · rcases l1 with _ | ⟨x, _ | ⟨y, l1⟩⟩
    · simp only [List.nil_append, List.cons.injEq] at he
      obtain ⟨ha, hb, hl2⟩ := he
      subst ha
      subst hb
      decide
    · simp only [List.cons_append, List.nil_append, List.cons.injEq] at he
      obtain ⟨hx, ha, hb, hl2⟩ := he
      subst ha
      subst hb
      decide
    · simp only [List.cons_append, List.cons.injEq] at he
      obtain ⟨hx, hy, hl⟩ := he
      have hlen := congrArg List.length hl
      simp only [List.length_cons, List.length_nil, List.length_append] at hlen
      omega
  · rcases l1 with _ | ⟨x, _ | ⟨y, l1⟩⟩
    · simp only [List.nil_append, List.cons.injEq] at he
      obtain ⟨ha, hb, hl2⟩ := he
      subst ha
      subst hb
      decide
    · simp only [List.cons_append, List.nil_append, List.cons.injEq] at he
      obtain ⟨hx, ha, hb, hl2⟩ := he
      subst ha
      subst hb
      decide
    · simp only [List.cons_append, List.cons.injEq] at he
      obtain ⟨hx, hy, hl⟩ := he
      have hlen := congrArg List.length hl
      simp only [List.length_cons, List.length_nil, List.length_append] at hlen
      omega

/-- C2: in every reachable state of the coordinator-driven task
lifecycle, for every registry key, the sequence of status values
written is monotone: no write ever follows a `completed` or `failed`
write (no transition out of a terminal state), and no later write is
`pending` (in particular a task is never reverted from `in_progress`
back to `pending`). -/
theorem c2_monotonic (s : Sys) (hs : Reach s) (k : String)
    (l1 l2 : List String) (a bb : String)
    (he : histOf s k = l1 ++ a :: bb :: l2) :
    bb ≠ "pending" ∧ a ≠ "completed" ∧ a ≠ "failed" :=
  taskHist_pairs ((reach_inv hs).1 k) l1 l2 a bb he

theorem c2_reach_s2 : Reach c2s2 :=
  Reach.deliver c2m c2handlers 7 8 [] []
    (Reach.publish "agentA" c2payload 5 100 101 102 "abc" Reach.init rfl) rfl

theorem c2_witness :
    ("in_progress" : String) ≠ "pending" ∧ ("pending" : String) ≠ "completed" ∧
    ("pending" : String) ≠ "failed" :=
  c2_monotonic c2s2 c2_reach_s2 ("task:" ++ c2m.tid) [] ["completed"]
    "pending" "in_progress" (by decide)

end AgentBase

